import Mathlib

/-!
Shallow embedding of `sql_to_drizzle` from `main.py` (a MySQL `CREATE TABLE`
to Drizzle-ORM schema converter), together with theorems settling the
specification claims about it.

Strings are modelled as `List Char`.  Python regular expressions are
hand-translated into deterministic matchers; each matcher carries a comment
naming the regex it embeds.  Case folding and whitespace classes are modelled
for ASCII text (the inputs exercised here are ASCII).  The single operation of
the Python code that could raise (`ref_cols[0]`) is modelled with `Option`, so
totality of the conversion is a provable statement rather than an assumption.
-/

namespace SqlToDrizzle

abbrev Str := List Char

/-- The single-quote character, written by code so that quote handling is
explicit. -/
def squote : Char := Char.ofNat 39

/-- Python `\s` / `str.isspace` for ASCII text. -/
def isSpaceCh (c : Char) : Bool :=
  c == ' ' || c == '\t' || c == '\n' || c == '\r' || c == Char.ofNat 11 || c == Char.ofNat 12

/-- Python `str.strip()` (whitespace at both ends). -/
def stripCh (s : Str) : Str :=
  ((s.dropWhile isSpaceCh).reverse.dropWhile isSpaceCh).reverse

/-- Python `str.strip(chars)`: remove any of `cset` from both ends. -/
def stripCharList (cset : List Char) (s : Str) : Str :=
  ((s.dropWhile (fun c => cset.contains c)).reverse.dropWhile (fun c => cset.contains c)).reverse

/-- `re.sub(r"\s+", " ", s)`: collapse every whitespace run to one space. -/
def collapseWsAux : Str → Bool → Str
  | [], _ => []
  | c :: rest, inRun =>
    if isSpaceCh c then
      if inRun then collapseWsAux rest true else ' ' :: collapseWsAux rest true
    else c :: collapseWsAux rest false

/-- Normalisation performed by `sql_to_drizzle`: strip, remove backticks,
collapse whitespace (in that order, as in the source). -/
def normalize (sql_text : Str) : Str :=
  collapseWsAux ((stripCh sql_text).filter (fun c => c ≠ '`')) false

/-- Case-insensitive literal match (re.IGNORECASE); returns the remainder. -/
def dropLitCI : Str → Str → Option Str
  | [], s => some s
  | _, [] => none
  | p :: ps, c :: cs => if p.toLower = c.toLower then dropLitCI ps cs else none

/-- Case-sensitive literal match; returns the remainder. -/
def dropLit : Str → Str → Option Str
  | [], s => some s
  | _, [] => none
  | p :: ps, c :: cs => if p = c then dropLit ps cs else none

/-- `\s+` (one or more whitespace, maximal munch; equivalent to the regex here
because every following token starts with a non-space character). -/
def spaces1 : Str → Option Str
  | [] => none
  | c :: cs => if isSpaceCh c then some ((c :: cs).dropWhile isSpaceCh) else none

/-- Python `\w` for ASCII: `[A-Za-z0-9_]`. -/
def isWordCh (c : Char) : Bool := c.isAlphanum || c == '_'

/-- `[A-Za-z_]\w*` (greedy); returns the identifier and the remainder. -/
def matchIdent : Str → Option (Str × Str)
  | [] => none
  | c :: cs =>
    if c.isAlpha || c == '_' then
      some (c :: cs.takeWhile isWordCh, cs.dropWhile isWordCh)
    else none

/-- Try a matcher at every position, leftmost first (re.search). -/
def searchPos (m : Str → Option α) : Str → Option α
  | [] => m []
  | s@(_ :: t) =>
    match m s with
    | some a => some a
    | none => searchPos m t

/-- Substring test (Python `needle in hay`). -/
def containsSub (needle : Str) : Str → Bool
  | [] => needle.isEmpty
  | hay@(_ :: t) => needle.isPrefixOf hay || containsSub needle t

/-- `CREATE\s+TABLE\s+(?:IF\s+NOT\s+EXISTS\s+)?([A-Za-z_]\w*)` at one
position, with the regex backtracking on the optional group. -/
def matchTableAt (s : Str) : Option Str :=
  (dropLitCI ("CREATE").toList s).bind fun r1 =>
  (spaces1 r1).bind fun r2 =>
  (dropLitCI ("TABLE").toList r2).bind fun r3 =>
  (spaces1 r3).bind fun r4 =>
    let withIf : Option Str :=
      (dropLitCI ("IF").toList r4).bind fun a1 =>
      (spaces1 a1).bind fun a2 =>
      (dropLitCI ("NOT").toList a2).bind fun a3 =>
      (spaces1 a3).bind fun a4 =>
      (dropLitCI ("EXISTS").toList a4).bind fun a5 =>
      (spaces1 a5).bind fun a6 =>
      (matchIdent a6).map (fun p => p.1)
    match withIf with
    | some n => some n
    | none => (matchIdent r4).map (fun p => p.1)

/-- `re.search` for the CREATE TABLE header; yields the table name. -/
def searchTable : Str → Option Str
  | [] => none
  | s@(_ :: t) =>
    match matchTableAt s with
    | some n => some n
    | none => searchTable t

/-- Result of locating the parenthesised column block. -/
inductive ExtractResult where
  | noParen
  | unbalanced
  | ok (inside : Str)
deriving DecidableEq, Repr

/-- Scan after the first `(` with depth 1; collect until the matching `)`. -/
def scanInside : Str → Nat → Option Str
  | [], _ => none
  | c :: cs, d =>
    if c = '(' then (scanInside cs (d + 1)).map (fun r => c :: r)
    else if c = ')' then
      if d = 1 then some []
      else (scanInside cs (d - 1)).map (fun r => c :: r)
    else (scanInside cs d).map (fun r => c :: r)

/-- `start = sql_text.find("(")` followed by the manual depth scan of the
source; mirrors the two failure exits (`start == -1`, `end == -1`). -/
def extractInside (s : Str) : ExtractResult :=
  match s.dropWhile (fun c => c ≠ '(') with
  | [] => .noParen
  | _ :: after =>
    match scanInside after 1 with
    | none => .unbalanced
    | some ins => .ok (stripCh ins)

/-- First parenthesis character of a string, if any. -/
def firstParenCh (s : Str) : Option Char :=
  (s.dropWhile (fun c => c ≠ '(' ∧ c ≠ ')')).head?

/-- `re.split(r",(?![^()]*\))", s)`: split at a comma unless the first
parenthesis character after it is `)`. -/
def splitLookaheadAux : Str → Str → List Str
  | [], acc => [acc.reverse]
  | c :: cs, acc =>
    if c = ',' ∧ firstParenCh cs ≠ some ')' then
      acc.reverse :: splitLookaheadAux cs []
    else splitLookaheadAux cs (c :: acc)

def splitLookahead (s : Str) : List Str := splitLookaheadAux s []

/-- `[x.strip() for x in re.split(...) if x.strip()]` on the column block. -/
def splitItems (inside : Str) : List Str :=
  ((splitLookahead inside).map stripCh).filter (fun x => x ≠ [])

/-- Python `str.split(",")` (plain split at every comma, empties kept). -/
def splitCommaAux : Str → Str → List Str
  | [], acc => [acc.reverse]
  | c :: cs, acc =>
    if c = ',' then acc.reverse :: splitCommaAux cs []
    else splitCommaAux cs (c :: acc)

def splitComma (s : Str) : List Str := splitCommaAux s []

/-! ## Data model (the per-column dict of the source, as a structure) -/

/-- The `ts_type` strings used by the source; `unset` is Python `""`. -/
inductive TsType where
  | unset | integer | varchar | text | double | boolean | timestamp | enum
deriving DecidableEq, Repr

structure Reference where
  table : Str
  column : Str
  onDelete : Option Str
  onUpdate : Option Str
deriving DecidableEq, Repr

structure Col where
  name : Str
  ts_type : TsType
  length : Option Nat
  not_null : Bool
  default : Option Str
  primary : Bool
  identity : Bool
  enum_name : Option Str
  enum_values : Option (List Str)
  references : Option Reference
  raw_type : Str
deriving DecidableEq, Repr

/-- A table-level foreign-key record. -/
structure Tfk where
  cols : List Str
  ref_table : Str
  ref_cols : List Str
  onDelete : Option Str
  onUpdate : Option Str
deriving DecidableEq, Repr

/-! ## Referential actions (`parse_actions`) -/

/-- One alternative of `(CASCADE|SET\s+NULL|RESTRICT|NO\s+ACTION)`, already
carried through `.lower().replace(" ", "")` and the `noaction -> no action`
rewrite of the source (lowering the matched text gives exactly these four
canonical results). -/
def matchActionTail (s : Str) : Option Str :=
  match dropLitCI ("CASCADE").toList s with
  | some _ => some ("cascade").toList
  | none =>
    match (dropLitCI ("SET").toList s).bind spaces1 |>.bind (dropLitCI ("NULL").toList) with
    | some _ => some ("setnull").toList
    | none =>
      match dropLitCI ("RESTRICT").toList s with
      | some _ => some ("restrict").toList
      | none =>
        match (dropLitCI ("NO").toList s).bind spaces1 |>.bind (dropLitCI ("ACTION").toList) with
        | some _ => some ("no action").toList
        | none => none

/-- `ON\s+<kw>\s+(CASCADE|SET\s+NULL|RESTRICT|NO\s+ACTION)` at one position. -/
def matchOnKwAt (kw : Str) (s : Str) : Option Str :=
  (dropLitCI ("ON").toList s).bind fun r1 =>
  (spaces1 r1).bind fun r2 =>
  (dropLitCI kw r2).bind fun r3 =>
  (spaces1 r3).bind fun r4 =>
  matchActionTail r4

/-- `parse_actions(tail_upper)` of the source: the two `re.search` calls. -/
def parse_actions (tail_upper : Str) : Option Str × Option Str :=
  (searchPos (matchOnKwAt ("DELETE").toList) tail_upper,
   searchPos (matchOnKwAt ("UPDATE").toList) tail_upper)

/-! ## Column-remainder field extractors -/

/-- `ENUM\s*\(([^)]*)\)` at one position; yields the raw value list text. -/
def matchEnumAt (s : Str) : Option Str :=
  (dropLitCI ("ENUM").toList s).bind fun r1 =>
    match r1.dropWhile isSpaceCh with
    | '(' :: r2 =>
      if (r2.dropWhile (fun c => c ≠ ')')) ≠ [] then some (r2.takeWhile (fun c => c ≠ ')'))
      else none
    | _ => none

/-- `re.search(r"ENUM\s*\(([^)]*)\)", rest, re.IGNORECASE)`. -/
def m_enum (rest : Str) : Option Str := searchPos matchEnumAt rest

/-- The value cleanup of the source:
`v.strip().strip("'").strip('"')` over the lookahead comma split, dropping
values that are empty after `strip()`. -/
def enumVals (g : Str) : List Str :=
  ((splitLookahead g).filter (fun v => stripCh v ≠ [])).map
    (fun v => stripCharList ['"'] (stripCharList [squote] (stripCh v)))

/-- `REFERENCES\s+([A-Za-z_]\w*)\s*\(\s*([A-Za-z_]\w*)\s*\)\s*(.*)$` at one
position; actions are parsed from the uppercased tail as in the source. -/
def matchRefAt (s : Str) : Option Reference :=
  (dropLitCI ("REFERENCES").toList s).bind fun r1 =>
  (spaces1 r1).bind fun r2 =>
  (matchIdent r2).bind fun p1 =>
    match p1.2.dropWhile isSpaceCh with
    | '(' :: r3 =>
      (matchIdent (r3.dropWhile isSpaceCh)).bind fun p2 =>
        match p2.2.dropWhile isSpaceCh with
        | ')' :: r4 =>
          let tail := r4.dropWhile isSpaceCh
          let acts := parse_actions (tail.map Char.toUpper)
          some { table := p1.1, column := p2.1, onDelete := acts.1, onUpdate := acts.2 }
        | _ => none
    | _ => none

/-- `re.search` for the column-level `REFERENCES` clause. -/
def m_ref (rest : Str) : Option Reference := searchPos matchRefAt rest

/-- `DEFAULT\s+'([^']*)'` at one position. -/
def matchDefStrAt (s : Str) : Option Str :=
  (dropLitCI ("DEFAULT").toList s).bind fun r1 =>
  (spaces1 r1).bind fun r2 =>
    match r2 with
    | c :: r3 =>
      if c = squote then
        if (r3.dropWhile (fun d => d ≠ squote)) ≠ [] then
          some (r3.takeWhile (fun d => d ≠ squote))
        else none
      else none
    | [] => none

def m_def_str (rest : Str) : Option Str := searchPos matchDefStrAt rest

/-- `DEFAULT\s+"([^"]*)"` at one position. -/
def matchDefQuotedAt (s : Str) : Option Str :=
  (dropLitCI ("DEFAULT").toList s).bind fun r1 =>
  (spaces1 r1).bind fun r2 =>
    match r2 with
    | '"' :: r3 =>
      if (r3.dropWhile (fun d => d ≠ '"')) ≠ [] then
        some (r3.takeWhile (fun d => d ≠ '"'))
      else none
    | _ => none

def m_def_quoted (rest : Str) : Option Str := searchPos matchDefQuotedAt rest

/-- `DEFAULT\s+([+-]?\d+(?:\.\d+)?)` at one position. -/
def matchDefNumAt (s : Str) : Option Str :=
  (dropLitCI ("DEFAULT").toList s).bind fun r1 =>
  (spaces1 r1).bind fun r2 =>
    let sign : Str × Str :=
      match r2 with
      | c :: cs => if c = '+' ∨ c = '-' then ([c], cs) else ([], r2)
      | [] => ([], r2)
    let ds := sign.2.takeWhile Char.isDigit
    if ds = [] then none
    else
      match sign.2.dropWhile Char.isDigit with
      | '.' :: r4 =>
        let fs := r4.takeWhile Char.isDigit
        if fs = [] then some (sign.1 ++ ds) else some (sign.1 ++ ds ++ '.' :: fs)
      | _ => some (sign.1 ++ ds)

def m_def_num (rest : Str) : Option Str := searchPos matchDefNumAt rest

/-- `DEFAULT\s+(true|false|TRUE|FALSE|0|1)` at one position (IGNORECASE, so
the TRUE/FALSE alternatives are subsumed; the source lowercases the match, so
returning the lowercased alternative directly is equivalent). -/
def matchDefBoolAt (s : Str) : Option Str :=
  (dropLitCI ("DEFAULT").toList s).bind fun r1 =>
  (spaces1 r1).bind fun r2 =>
    match dropLitCI ("true").toList r2 with
    | some _ => some ("true").toList
    | none =>
      match dropLitCI ("false").toList r2 with
      | some _ => some ("false").toList
      | none =>
        match r2 with
        | '0' :: _ => some (['0'])
        | '1' :: _ => some (['1'])
        | _ => none

def m_def_bool (rest : Str) : Option Str := searchPos matchDefBoolAt rest

/-- `DEFAULT\s+([A-Za-z_]\w*\s*\([^)]*\))` at one position (function-call
shaped default, preserved verbatim, inner spacing included). -/
def matchDefFnAt (s : Str) : Option Str :=
  (dropLitCI ("DEFAULT").toList s).bind fun r1 =>
  (spaces1 r1).bind fun r2 =>
  (matchIdent r2).bind fun p =>
    let sp := p.2.takeWhile isSpaceCh
    match p.2.dropWhile isSpaceCh with
    | '(' :: r3 =>
      if (r3.dropWhile (fun c => c ≠ ')')) ≠ [] then
        some (p.1 ++ sp ++ '(' :: (r3.takeWhile (fun c => c ≠ ')') ++ [')']))
      else none
    | _ => none

def m_def_fn (rest : Str) : Option Str := searchPos matchDefFnAt rest

/-- `f'"{g}"'`: re-quote a captured string default with double quotes. -/
def dquote (g : Str) : Str := '"' :: (g ++ ['"'])

/-- The bare `0`/`1` normalisation of the source. -/
def normBool01 (v : Str) : Str :=
  if v = ['0'] then ("false").toList
  else if v = ['1'] then ("true").toList
  else v

/-- The DEFAULT-extraction `if/elif` chain of the source, in its order:
single-quoted, double-quoted, boolean, numeric, function call. -/
def extractDefault (rest : Str) : Option Str :=
  match m_def_str rest with
  | some g => some (dquote g)
  | none =>
    match m_def_quoted rest with
    | some g => some (dquote g)
    | none =>
      match m_def_bool rest with
      | some v => some (normBool01 v)
      | none =>
        match m_def_num rest with
        | some g => some g
        | none =>
          match m_def_fn rest with
          | some g => some g
          | none => none

/-! ## Type detection -/

/-- `\b` before the token and after it; `prev` is the character before the
current position (none at the string start). -/
def wordTokAt (alts : List Str) (s : Str) : Bool :=
  alts.any (fun a =>
    match dropLit a s with
    | some r =>
      match r with
      | [] => true
      | c :: _ => !(isWordCh c)
    | none => false)

def wordTokGo (alts : List Str) : Option Char → Str → Bool
  | _, [] => false
  | prev, s@(c :: t) =>
    ((match prev with
      | none => true
      | some p => !(isWordCh p)) && wordTokAt alts s) || wordTokGo alts (some c) t

/-- `re.search(r"\b(A|B|...)\b", s)` as a Boolean (the alternatives are
applied to the already-uppercased remainder, case-sensitively, as in the
source which passes no flag there). -/
def wordTokSearch (alts : List Str) (s : Str) : Bool := wordTokGo alts none s

/-- `\((\d+)\)` at one position. -/
def matchParenLenAt (s : Str) : Option Nat :=
  match s with
  | '(' :: r1 =>
    let ds := r1.takeWhile Char.isDigit
    if ds = [] then none
    else
      match r1.dropWhile Char.isDigit with
      | ')' :: _ => some (ds.foldl (fun a c => a * 10 + (c.toNat - 48)) 0)
      | _ => none
  | _ => none

/-- `re.search(r"\((\d+)\)", rest)` with `int()` applied to the group. -/
def m_len (rest : Str) : Option Nat := searchPos matchParenLenAt rest

/-- The `elif` chain of explicit base-type detection (lines 295-323 of the
source), producing `(ts_type, length, raw_type)`. -/
def detectType (rest restUpper : Str) : TsType × Option Nat × Str :=
  if wordTokSearch [("BIGINT").toList, ("SMALLINT").toList, ("INT").toList, ("INTEGER").toList] restUpper then
    (.integer, none, ("INT").toList)
  else if containsSub ("VARCHAR").toList restUpper || wordTokSearch [("CHAR").toList] restUpper then
    (.varchar, some (match m_len rest with | some n => n | none => 255), ("VARCHAR").toList)
  else if containsSub ("LONGTEXT").toList restUpper || wordTokSearch [("TEXT").toList] restUpper then
    (.text, none, ("TEXT").toList)
  else if wordTokSearch [("DOUBLE").toList, ("FLOAT").toList, ("DECIMAL").toList, ("NUMERIC").toList] restUpper then
    (.double, none, ("DOUBLE").toList)
  else if containsSub ("BOOLEAN").toList restUpper || containsSub ("TINYINT(1)").toList restUpper then
    (.boolean, none, ("BOOLEAN").toList)
  else if wordTokSearch [("DATETIME").toList, ("TIMESTAMP").toList, ("DATE").toList] restUpper then
    (.timestamp, none, ("TIMESTAMP").toList)
  else (.unset, none, [])

/-- The identity test of the source (three substring checks on the
uppercased remainder). -/
def identityOf (restUpper : Str) : Bool :=
  containsSub ("AUTO_INCREMENT").toList restUpper ||
  containsSub ("GENERATED ALWAYS AS IDENTITY").toList restUpper ||
  containsSub ("GENERATED BY DEFAULT AS IDENTITY").toList restUpper

/-! ## Column parsing (pass 1 of the source, one item) -/

/-- All name-independent column fields, following the source's sequence:
flag extraction, ENUM, REFERENCES, DEFAULT, then — only when no ENUM was
matched — type detection, the identity override, the column-level-PK
inference and the text fallback. -/
def parseColumnCore (rest : Str) : Col :=
  let restUpper := rest.map Char.toUpper
  let col0 : Col := {
    name := []
    ts_type := .unset
    length := none
    not_null := containsSub ("NOT NULL").toList restUpper
    default := extractDefault rest
    primary := containsSub ("PRIMARY KEY").toList restUpper
    identity := identityOf restUpper
    enum_name := none
    enum_values := none
    references := m_ref rest
    raw_type := [] }
  match m_enum rest with
  | some g =>
    { col0 with ts_type := .enum, raw_type := ("ENUM").toList, enum_values := some (enumVals g) }
  | none =>
    let d := detectType rest restUpper
    let c1 := { col0 with ts_type := d.1, length := d.2.1, raw_type := d.2.2 }
    let c2 := if c1.identity then { c1 with ts_type := .integer, primary := true } else c1
    let c3 := if c2.primary ∧ c2.ts_type = .unset then { c2 with ts_type := .integer } else c2
    if c3.ts_type = .unset then { c3 with ts_type := .text } else c3

/-- A parsed column: the core plus the two name-dependent fields
(`name` itself and the derived `<name>Enum` enum name). -/
def parseColumn (name rest : Str) : Col :=
  let core := parseColumnCore rest
  { core with
    name := name
    enum_name := if (m_enum rest).isSome then some (name ++ ("Enum").toList) else none }

/-! ## Item classification -/

/-- `PRIMARY\s+KEY\s*\(([^)]+)\)` anchored at the start (`re.match`), applied
by the source to the UPPERCASED item; yields the group. -/
def matchTpkAt (upper : Str) : Option Str :=
  (dropLitCI ("PRIMARY").toList upper).bind fun r1 =>
  (spaces1 r1).bind fun r2 =>
  (dropLitCI ("KEY").toList r2).bind fun r3 =>
    match r3.dropWhile isSpaceCh with
    | '(' :: r4 =>
      let g := r4.takeWhile (fun c => c ≠ ')')
      if g ≠ [] ∧ (r4.dropWhile (fun c => c ≠ ')')) ≠ [] then some g else none
    | _ => none

/-- `[c.strip().strip('"').strip() for c in group.split(",")]`. -/
def tpkCols (g : Str) : List Str :=
  (splitComma g).map (fun c => stripCh (stripCharList ['"'] (stripCh c)))

/-- `FOREIGN\s+KEY\s*\(([^)]+)\)\s*REFERENCES\s+([A-Za-z_]\w*)\s*\(([^)]+)\)\s*(.*)$`
anchored at the start of the original-case item; yields the four groups. -/
def matchTfkAt (item : Str) : Option (Str × Str × Str × Str) :=
  (dropLitCI ("FOREIGN").toList item).bind fun r1 =>
  (spaces1 r1).bind fun r2 =>
  (dropLitCI ("KEY").toList r2).bind fun r3 =>
    match r3.dropWhile isSpaceCh with
    | '(' :: r4 =>
      let g1 := r4.takeWhile (fun c => c ≠ ')')
      match r4.dropWhile (fun c => c ≠ ')') with
      | ')' :: r5 =>
        if g1 = [] then none
        else
          (dropLitCI ("REFERENCES").toList (r5.dropWhile isSpaceCh)).bind fun r6 =>
          (spaces1 r6).bind fun r7 =>
          (matchIdent r7).bind fun p =>
            match p.2.dropWhile isSpaceCh with
            | '(' :: r8 =>
              let g3 := r8.takeWhile (fun c => c ≠ ')')
              match r8.dropWhile (fun c => c ≠ ')') with
              | ')' :: r9 =>
                if g3 = [] then none
                else some (g1, p.1, g3, r9.dropWhile isSpaceCh)
              | _ => none
            | _ => none
      | _ => none
    | _ => none

/-- Build the table-level FK record from the regex groups, as the source
does (plain comma split, strip, actions from the uppercased tail). -/
def mkTfk (g1 g2 g3 g4 : Str) : Tfk :=
  let acts := parse_actions (g4.map Char.toUpper)
  { cols := (splitComma g1).map stripCh
    ref_table := g2
    ref_cols := (splitComma g3).map stripCh
    onDelete := acts.1
    onUpdate := acts.2 }

/-- `item.split(None, 1)`: first whitespace-run split. -/
def splitFirstWs (item : Str) : Option (Str × Str) :=
  match item.dropWhile isSpaceCh with
  | [] => none
  | t@(_ :: _) =>
    some (t.takeWhile (fun c => !(isSpaceCh c)),
          (t.dropWhile (fun c => !(isSpaceCh c))).dropWhile isSpaceCh)

inductive Item where
  | tpk (cols : List Str)
  | tfk (fk : Tfk)
  | col (c : Col)
  | skip
deriving DecidableEq, Repr

/-- The top of the pass-1 loop: table-level PK, table-level FK, otherwise a
column definition (`skip` is the empty-`parts` guard of the source). -/
def classify (item : Str) : Item :=
  match matchTpkAt (item.map Char.toUpper) with
  | some g => .tpk (tpkCols g)
  | none =>
    match matchTfkAt item with
    | some (g1, g2, g3, g4) => .tfk (mkTfk g1 g2 g3 g4)
    | none =>
      match splitFirstWs item with
      | some (nm, rest) => .col (parseColumn nm rest)
      | none => .skip

/-- The column produced by an item, when it is a column definition. -/
def colOf (item : Str) : Option Col :=
  match classify item with
  | .col c => some c
  | _ => none

/-! ## The columns dictionary (Python `dict` insertion semantics) -/

/-- `columns[col_name] = col`: replace in place when the key exists (keeping
its position), append otherwise. -/
def insertCol : List Col → Col → List Col
  | [], c => [c]
  | d :: t, c => if d.name = c.name then c :: t else d :: insertCol t c

/-- `columns.get(n)`-style lookup by name. -/
def lookupCol (n : Str) : List Col → Option Col
  | [] => none
  | d :: t => if d.name = n then some d else lookupCol n t

/-- The last column definition carrying a given name in a list of parsed
column definitions. -/
def lastDef (n : Str) : List Col → Option Col
  | [] => none
  | d :: t =>
    match lastDef n t with
    | some e => some e
    | none => if d.name = n then some d else none

/-- Name sequence with later duplicates dropped (first occurrence kept) —
the key order of a Python dict under overwrites. -/
def keepFirstAux (seen : List Str) : List Str → List Str
  | [] => []
  | n :: t => if n ∈ seen then keepFirstAux seen t else n :: keepFirstAux (n :: seen) t

/-! ## Rendering helpers -/

def joinWith (sep : Str) : List Str → Str
  | [] => []
  | x :: xs =>
    match xs with
    | [] => x
    | _ :: _ => x ++ sep ++ joinWith sep xs

/-- Python `str(list_of_strings)` for values without quotes or escapes in
them (the enum values rendered by the source); e.g. `['a', 'b']`. -/
def pyListRepr (vals : List Str) : Str :=
  '[' :: (joinWith (", ").toList (vals.map (fun v => squote :: (v ++ [squote]))) ++ [']'])

/-- `f"export const {name}Enum = pgEnum('{name}', {vals});"`. -/
def mkEnumLine (name : Str) (vals : List Str) : Str :=
  ("export const ").toList ++
    (name ++ ("Enum = pgEnum(").toList ++ squote :: (name ++ squote :: (", ").toList ++
      pyListRepr vals ++ (");").toList))

/-- The enum line registered by one parsed column, if any. -/
def enumLinesOf (c : Col) : List Str :=
  match c.enum_values with
  | some vs => [mkEnumLine c.name vs]
  | none => []

/-! ## Pass 1 over the items -/

structure P1 where
  columns : List Col
  table_level_pk : List Str
  table_level_fks : List Tfk
  enums : List Str
deriving Repr

def p1Init : P1 := { columns := [], table_level_pk := [], table_level_fks := [], enums := [] }

def pass1Step (st : P1) (item : Str) : P1 :=
  match classify item with
  | .tpk cols => { st with table_level_pk := cols }
  | .tfk fk => { st with table_level_fks := st.table_level_fks ++ [fk] }
  | .col c => { st with columns := insertCol st.columns c, enums := st.enums ++ enumLinesOf c }
  | .skip => st

def pass1 (items : List Str) : P1 := items.foldl pass1Step p1Init

/-! ## Pass 2: table-level primary key -/

/-- The table-level-PK resolution of the source: a single named column gets
`primary := true` and, when it has no captured raw type, `varchar(200)`;
a multi-column PK yields the composite list (filtered to existing columns)
and applies the `varchar(200)` nudge to each untyped member. -/
def applyTpk (columns : List Col) (table_level_pk : List Str) :
    List Col × Option (List Str) :=
  match table_level_pk with
  | [] => (columns, none)
  | [pkc] =>
    if (lookupCol pkc columns).isSome then
      (columns.map (fun d =>
        if d.name = pkc then
          let d1 := { d with primary := true }
          if d1.raw_type = [] then { d1 with ts_type := .varchar, length := some 200 } else d1
        else d), none)
    else (columns, none)
  | _ :: _ :: _ =>
    let composite := table_level_pk.filter (fun c => (lookupCol c columns).isSome)
    (columns.map (fun d =>
      if d.name ∈ composite ∧ d.raw_type = [] then
        { d with ts_type := .varchar, length := some 200 }
      else d), some composite)

/-! ## Rendering -/

/-- Option rendering shared by column references and standalone FK entries:
`, { onDelete: '...', onUpdate: '...' }` (empty when no action). -/
def actionOpts (od ou : Option Str) (delKey updKey : Str) : Str :=
  let parts : List Str :=
    (match od with
     | some a => [delKey ++ squote :: (a ++ [squote])]
     | none => []) ++
    (match ou with
     | some a => [updKey ++ squote :: (a ++ [squote])]
     | none => [])
  if parts ≠ [] then (", \x7b ").toList ++ joinWith (", ").toList parts ++ (" \x7d").toList
  else []

/-- `col_builder` of the source: one builder line per column. -/
def col_builder (c : Col) : Str :=
  let name := c.name
  let dv :=
    match c.default with
    | some v => (".default(").toList ++ v ++ [')']
    | none => []
  let nn := if c.not_null then (".notNull()").toList else []
  let pk := if c.primary then (".primaryKey()").toList else []
  let ident := if c.identity then (".generatedAlwaysAsIdentity()").toList else []
  let ref :=
    match c.references with
    | some r =>
      (".references(() => ").toList ++ r.table ++ '.' :: r.column ++
        actionOpts r.onDelete r.onUpdate ("onDelete: ").toList ("onUpdate: ").toList ++ [')']
    | none => []
  let suffix := dv ++ nn ++ pk ++ ident ++ ref ++ [',']
  match c.ts_type with
  | .enum =>
    ("  ").toList ++ name ++ (": ").toList ++
      (match c.enum_name with | some e => e | none => []) ++
      ("(\"").toList ++ name ++ ("\")").toList ++ suffix
  | .integer =>
    ("  ").toList ++ name ++ (": integer(\"").toList ++ name ++ ("\")").toList ++ suffix
  | .varchar =>
    let length := match c.length with | some n => if n = 0 then 255 else n | none => 255
    ("  ").toList ++ name ++ (": varchar(\"").toList ++ name ++
      ("\", \x7b length: ").toList ++ (Nat.repr length).toList ++ (" \x7d)").toList ++ suffix
  | .text =>
    ("  ").toList ++ name ++ (": text(\"").toList ++ name ++ ("\")").toList ++ suffix
  | .double =>
    ("  ").toList ++ name ++ (": double(\"").toList ++ name ++ ("\")").toList ++ suffix
  | .boolean =>
    ("  ").toList ++ name ++ (": boolean(\"").toList ++ name ++ ("\")").toList ++ suffix
  | .timestamp =>
    ("  ").toList ++ name ++ (": timestamp(\"").toList ++ name ++ ("\")").toList ++ suffix
  | .unset =>
    ("  ").toList ++ name ++ (": text(\"").toList ++ name ++ ("\")").toList ++ suffix

/-- Mark the named column's `references` (the dict mutation of the source's
FK fold branch; it happens after the column lines were already rendered). -/
def setColRef (columns : List Col) (n : Str) (r : Reference) : List Col :=
  columns.map (fun d => if d.name = n then { d with references := some r } else d)

/-- The standalone `foreignKey(...)` builder entry of the source. -/
def fkEntry (columns : List Col) (fk : Tfk) : Str :=
  let cols_expr :=
    joinWith (", ").toList
      ((fk.cols.filter (fun c => (lookupCol c columns).isSome)).map
        (fun c => ("table.").toList ++ c))
  let ref_expr :=
    joinWith (", ").toList (fk.ref_cols.map (fun rc => fk.ref_table ++ '.' :: rc))
  ("fk_").toList ++ joinWith (['_']) fk.cols ++ '_' :: fk.ref_table ++
    (": foreignKey(\x7b columns: [").toList ++ cols_expr ++
    ("], foreignColumns: [").toList ++ ref_expr ++ ("] \x7d").toList ++
    actionOpts fk.onDelete fk.onUpdate ("onDelete: ").toList ("onUpdate: ").toList ++ [')']

/-- One step of the source's table-level FK loop.  A single-column FK whose
column exists and has no Reference yet is folded into the columns state
(`ref_cols[0]` is the one unguarded index of the source, modelled with
`Option`); every other FK appends a standalone entry. -/
def applyTfk (st : List Col × List Str) (fk : Tfk) : Option (List Col × List Str) :=
  match fk.cols with
  | [c0] =>
    match lookupCol c0 st.1 with
    | some d =>
      if d.references = none then
        match fk.ref_cols with
        | r0 :: _ =>
          some (setColRef st.1 c0
            { table := fk.ref_table, column := r0, onDelete := fk.onDelete, onUpdate := fk.onUpdate },
            st.2)
        | [] => none
      else some (st.1, st.2 ++ [fkEntry st.1 fk])
    | none => some (st.1, st.2 ++ [fkEntry st.1 fk])
  | _ => some (st.1, st.2 ++ [fkEntry st.1 fk])

def resolveTfks : List Col × List Str → List Tfk → Option (List Col × List Str)
  | st, [] => some st
  | st, fk :: rest =>
    match applyTfk st fk with
    | some st2 => resolveTfks st2 rest
    | none => none

/-- `f'export const {t} = pgTable("{t}", {{'`. -/
def tableStartLine (table_name : Str) : Str :=
  ("export const ").toList ++
    (table_name ++ (" = pgTable(\"").toList ++ table_name ++ ("\", \x7b").toList)

/-- The composite-PK builder entry, when ≥ 2 named columns exist. -/
def pkEntries (composite : Option (List Str)) : List Str :=
  match composite with
  | some l =>
    if l.length > 1 then
      [("pk: primaryKey(").toList ++
        joinWith (", ").toList (l.map (fun c => ("table.").toList ++ c)) ++ [')']]
    else []
  | none => []

/-- The line list assembled by the source once the FK loop finished with
final state `st`: enum lines, table start, column lines (from the pre-FK
columns state), `}`, the optional `(table) => ({...})` builder block, `);`,
joined with newlines. -/
def renderBody (table_name : Str) (enums : List Str) (columns : List Col)
    (composite : Option (List Str)) (st : List Col × List Str) : Str :=
  let builder_entries := pkEntries composite ++ st.2
  let builderLines :=
    if builder_entries ≠ [] then
      (", (table) => (\x7b").toList ::
        (builder_entries.map (fun be => ("  ").toList ++ be ++ [',']) ++ [("\x7d)").toList])
    else []
  joinWith (['\n'])
    (enums ++ tableStartLine table_name ::
      (columns.map col_builder ++ [("\x7d").toList] ++ builderLines ++ [(");").toList]))

/-- The rendering tail of the source: run the table-level FK loop, then
assemble the line list. -/
def renderAll (table_name : Str) (enums : List Str) (columns : List Col)
    (composite : Option (List Str)) (tfks : List Tfk) : Option Str :=
  (resolveTfks (columns, []) tfks).map (renderBody table_name enums columns composite)

/-- The full `sql_to_drizzle(sql_text)` of the source.  `none` models an
uncaught Python exception (which we prove never happens). -/
def sql_to_drizzle (sql_text : Str) : Option Str :=
  let s := normalize sql_text
  let table_name := (searchTable s).getD ("unknown").toList
  match extractInside s with
  | .noParen => some (("// Failed to parse table definition for ").toList ++ table_name)
  | .unbalanced => some (("// Failed to parse columns for ").toList ++ table_name)
  | .ok inside =>
    let st := pass1 (splitItems inside)
    let p2 := applyTpk st.columns st.table_level_pk
    renderAll table_name st.enums p2.1 p2.2 st.table_level_fks

/-- `true` when the column-block extraction failed (either diagnostic). -/
def extractFailedB (s : Str) : Bool :=
  match extractInside s with
  | .ok _ => false
  | _ => true

/-- `p` is a prefix of `s`. -/
def leadsWith (p s : Str) : Prop := ∃ t, p ++ t = s

/-! ## Lemmas: the columns dictionary -/

theorem insertCol_names (cs : List Col) (c : Col) :
    (insertCol cs c).map Col.name =
      if c.name ∈ cs.map Col.name then cs.map Col.name else cs.map Col.name ++ [c.name] := by
  induction cs with
  | nil => simp [insertCol]
  | cons d t ih =>
    by_cases h : d.name = c.name
    · simp [insertCol, h]
    · simp only [insertCol, if_neg h, List.map_cons]
      rw [ih]
      by_cases hm : c.name ∈ t.map Col.name
      · simp [hm, Ne.symm h]
      · simp [hm, Ne.symm h]

theorem lookupCol_insertCol (cs : List Col) (c : Col) (n : Str) :
    lookupCol n (insertCol cs c) = if c.name = n then some c else lookupCol n cs := by
  induction cs with
  | nil => by_cases h : c.name = n <;> simp [insertCol, lookupCol, h]
  | cons d t ih =>
    by_cases hdc : d.name = c.name
    · by_cases hcn : c.name = n
      · simp [insertCol, hdc, lookupCol, hcn]
      · have hdn : d.name ≠ n := by rw [hdc]; exact hcn
        simp [insertCol, hdc, lookupCol, hcn, hdn]
    · by_cases hcn : c.name = n
      · have hdn : d.name ≠ n := by rw [← hcn]; exact hdc
        simp [insertCol, hdc, lookupCol, hdn, ih, hcn]
      · simp [insertCol, hdc, lookupCol, ih, hcn]

theorem insertCol_nodup (cs : List Col) (c : Col) (h : (cs.map Col.name).Nodup) :
    ((insertCol cs c).map Col.name).Nodup := by
  rw [insertCol_names]
  by_cases hm : c.name ∈ cs.map Col.name
  · simpa [hm]
  · simp [hm, List.nodup_append, h]

theorem foldl_insertCol_nodup (ds : List Col) : ∀ cs : List Col,
    (cs.map Col.name).Nodup → ((ds.foldl insertCol cs).map Col.name).Nodup := by
  induction ds with
  | nil => intro cs h; simpa
  | cons d t ih => intro cs h; exact ih _ (insertCol_nodup _ _ h)

theorem keepFirstAux_congr (l : List Str) : ∀ s1 s2 : List Str,
    (∀ x, x ∈ s1 ↔ x ∈ s2) → keepFirstAux s1 l = keepFirstAux s2 l := by
  induction l with
  | nil => intro s1 s2 _; rfl
  | cons n t ih =>
    intro s1 s2 h
    simp only [keepFirstAux]
    by_cases hm : n ∈ s1
    · rw [if_pos hm, if_pos ((h n).mp hm), ih s1 s2 h]
    · rw [if_neg hm, if_neg (fun hx => hm ((h n).mpr hx)),
        ih (n :: s1) (n :: s2) (fun x => by simp [h x])]

theorem foldl_insertCol_names (ds : List Col) : ∀ cs : List Col,
    (ds.foldl insertCol cs).map Col.name =
      cs.map Col.name ++ keepFirstAux (cs.map Col.name) (ds.map Col.name) := by
  induction ds with
  | nil => intro cs; simp [keepFirstAux]
  | cons d t ih =>
    intro cs
    simp only [List.foldl_cons, List.map_cons, keepFirstAux]
    by_cases hm : d.name ∈ cs.map Col.name
    · rw [ih, if_pos hm]
      have hnames : (insertCol cs d).map Col.name = cs.map Col.name := by
        rw [insertCol_names, if_pos hm]
      rw [hnames]
    · rw [ih, if_neg hm]
      have hnames : (insertCol cs d).map Col.name = cs.map Col.name ++ [d.name] := by
        rw [insertCol_names, if_neg hm]
      rw [hnames, List.append_assoc]
      congr 1
      rw [List.singleton_append]
      congr 1
      exact keepFirstAux_congr _ _ _ (fun x => by simp [or_comm])

theorem foldl_insertCol_lookup (ds : List Col) : ∀ (cs : List Col) (n : Str),
    lookupCol n (ds.foldl insertCol cs) =
      match lastDef n ds with
      | some e => some e
      | none => lookupCol n cs := by
  induction ds with
  | nil => intro cs n; simp [lastDef]
  | cons d t ih =>
    intro cs n
    simp only [List.foldl_cons, lastDef]
    rw [ih]
    cases h : lastDef n t with
    | some e => simp
    | none =>
      simp only []
      rw [lookupCol_insertCol]
      by_cases hdn : d.name = n
      · simp [hdn]
      · simp [hdn]

theorem pass1_columns (items : List Str) : ∀ st : P1,
    (items.foldl pass1Step st).columns = (items.filterMap colOf).foldl insertCol st.columns := by
  induction items with
  | nil => intro st; simp
  | cons i t ih =>
    intro st
    simp only [List.foldl_cons, List.filterMap_cons]
    cases h : classify i with
    | tpk cols => simp only [pass1Step, h, colOf]; rw [ih]
    | tfk fk => simp only [pass1Step, h, colOf]; rw [ih]
    | col c => simp only [pass1Step, h, colOf]; rw [ih]; simp [List.foldl_cons]
    | skip => simp only [pass1Step, h, colOf]; rw [ih]

/-- C10: duplicate column names do not fail; the columns dictionary keeps one
entry per name (so the rendered body has exactly one builder line per name),
that entry is the LAST definition of the name, and the key order is the order
of FIRST occurrences — Python dict insertion semantics under overwrite. -/
theorem duplicateColumnLastWins (items : List Str) :
    (((pass1 items).columns.map Col.name).Nodup) ∧
    ((pass1 items).columns.map Col.name =
      keepFirstAux [] ((items.filterMap colOf).map Col.name)) ∧
    (∀ n, lookupCol n (pass1 items).columns = lastDef n (items.filterMap colOf)) := by
  have hcols : (pass1 items).columns = (items.filterMap colOf).foldl insertCol [] :=
    pass1_columns items p1Init
  refine ⟨?_, ?_, ?_⟩
  · rw [hcols]
    exact foldl_insertCol_nodup _ [] (by simp)
  · rw [hcols, foldl_insertCol_names]
    simp
  · intro n
    rw [hcols, foldl_insertCol_lookup]
    cases h : lastDef n (items.filterMap colOf) <;> simp [lookupCol]

/-! ## Lemmas: totality and output shape -/

theorem splitCommaAux_ne_nil (s : Str) : ∀ acc, splitCommaAux s acc ≠ [] := by
  induction s with
  | nil => intro acc; simp [splitCommaAux]
  | cons c cs ih =>
    intro acc
    simp only [splitCommaAux]
    by_cases h : c = ','
    · simp [h]
    · simp only [if_neg h]
      exact ih _

theorem splitComma_ne_nil (s : Str) : splitComma s ≠ [] := splitCommaAux_ne_nil s []

theorem mkTfk_ref_cols (g1 g2 g3 g4 : Str) : (mkTfk g1 g2 g3 g4).ref_cols ≠ [] := by
  simp only [mkTfk]
  intro h
  exact splitComma_ne_nil g3 (List.map_eq_nil_iff.mp h)

theorem classify_tfk_ref_cols (i : Str) (fk : Tfk) (h : classify i = .tfk fk) :
    fk.ref_cols ≠ [] := by
  unfold classify at h
  cases h1 : matchTpkAt (i.map Char.toUpper) with
  | some g => rw [h1] at h; simp at h
  | none =>
    rw [h1] at h
    cases h2 : matchTfkAt i with
    | some q =>
      obtain ⟨g1, g2, g3, g4⟩ := q
      rw [h2] at h
      simp only [Item.tfk.injEq] at h
      exact h ▸ mkTfk_ref_cols g1 g2 g3 g4
    | none =>
      rw [h2] at h
      cases h3 : splitFirstWs i with
      | some p => rw [h3] at h; simp at h
      | none => rw [h3] at h; simp at h

theorem applyTfk_isSome (fk : Tfk) (h : fk.ref_cols ≠ []) (st : List Col × List Str) :
    (applyTfk st fk).isSome := by
  unfold applyTfk
  cases hc : fk.cols with
  | nil => simp
  | cons c0 cs =>
    cases cs with
    | nil =>
      cases hl : lookupCol c0 st.1 with
      | some d =>
        by_cases hr : d.references = none
        · cases hrc : fk.ref_cols with
          | nil => exact absurd hrc h
          | cons r0 rs => simp [hl, hr, hrc]
        · simp [hl, hr]
      | none => simp [hl]
    | cons _ _ => simp

theorem resolveTfks_isSome (l : List Tfk) : ∀ st,
    (∀ fk ∈ l, fk.ref_cols ≠ []) → (resolveTfks st l).isSome := by
  induction l with
  | nil => intro st _; simp [resolveTfks]
  | cons fk rest ih =>
    intro st h
    simp only [resolveTfks]
    cases hap : applyTfk st fk with
    | some st2 => exact ih st2 (fun g hg => h g (List.mem_cons_of_mem fk hg))
    | none =>
      exact absurd (applyTfk_isSome fk (h fk (List.mem_cons_self fk rest)) st) (by rw [hap]; simp)

theorem pass1_inv_aux (items : List Str) : ∀ st : P1,
    ((∀ fk ∈ st.table_level_fks, fk.ref_cols ≠ []) ∧
     (∀ e ∈ st.enums, leadsWith ("export const ").toList e)) →
    ((∀ fk ∈ (items.foldl pass1Step st).table_level_fks, fk.ref_cols ≠ []) ∧
     (∀ e ∈ (items.foldl pass1Step st).enums, leadsWith ("export const ").toList e)) := by
  induction items with
  | nil => intro st h; simpa
  | cons i t ih =>
    intro st h
    rw [List.foldl_cons]
    apply ih
    cases hc : classify i with
    | tpk cols => simpa [pass1Step, hc] using h
    | skip => simpa [pass1Step, hc] using h
    | tfk fk =>
      refine ⟨?_, by simpa [pass1Step, hc] using h.2⟩
      intro g hg
      simp only [pass1Step, hc, List.mem_append, List.mem_singleton] at hg
      rcases hg with hg | hg
      · exact h.1 g hg
      · exact hg ▸ classify_tfk_ref_cols i fk hc
    | col c =>
      refine ⟨by simpa [pass1Step, hc] using h.1, ?_⟩
      intro e he
      simp only [pass1Step, hc, List.mem_append] at he
      rcases he with he | he
      · exact h.2 e he
      · unfold enumLinesOf at he
        cases hv : c.enum_values with
        | none => rw [hv] at he; simp at he
        | some vs =>
          rw [hv] at he
          simp only [List.mem_singleton] at he
          rw [he]
          exact ⟨_, rfl⟩

theorem pass1_fks (items : List Str) :
    ∀ fk ∈ (pass1 items).table_level_fks, fk.ref_cols ≠ [] :=
  (pass1_inv_aux items p1Init (by simp [p1Init])).1

theorem pass1_enums (items : List Str) :
    ∀ e ∈ (pass1 items).enums, leadsWith ("export const ").toList e :=
  (pass1_inv_aux items p1Init (by simp [p1Init])).2

theorem joinWith_head_leadsWith (sep p x : Str) (xs : List Str) (h : leadsWith p x) :
    leadsWith p (joinWith sep (x :: xs)) := by
  obtain ⟨t, ht⟩ := h
  cases xs with
  | nil => exact ⟨t, by simpa [joinWith]⟩
  | cons y ys =>
    refine ⟨t ++ (sep ++ joinWith sep (y :: ys)), ?_⟩
    have hj : joinWith sep (x :: y :: ys) = x ++ sep ++ joinWith sep (y :: ys) := by
      simp [joinWith]
    rw [hj, ← ht]
    simp [List.append_assoc]

theorem renderBody_eq (tn : Str) (enums : List Str) (columns : List Col)
    (composite : Option (List Str)) (st : List Col × List Str) :
    renderBody tn enums columns composite st =
      joinWith (['\n'])
        (enums ++ tableStartLine tn ::
          (columns.map col_builder ++ [("\x7d").toList] ++
            (if pkEntries composite ++ st.2 ≠ [] then
              (", (table) => (\x7b").toList ::
                ((pkEntries composite ++ st.2).map (fun be => ("  ").toList ++ be ++ [',']) ++
                  [("\x7d)").toList])
            else []) ++ [(");").toList])) := rfl

theorem renderBody_leadsWith (tn : Str) (enums : List Str) (columns : List Col)
    (composite : Option (List Str)) (st : List Col × List Str)
    (henums : ∀ e ∈ enums, leadsWith ("export const ").toList e) :
    leadsWith ("export const ").toList (renderBody tn enums columns composite st) := by
  rw [renderBody_eq]
  cases he : enums with
  | nil =>
    rw [List.nil_append]
    exact joinWith_head_leadsWith _ _ _ _ ⟨_, rfl⟩
  | cons e es =>
    rw [List.cons_append]
    exact joinWith_head_leadsWith _ _ _ _ (henums e (by rw [he]; exact List.mem_cons_self e es))

theorem renderAll_some (tn : Str) (enums : List Str) (columns : List Col)
    (composite : Option (List Str)) (tfks : List Tfk)
    (hfks : ∀ fk ∈ tfks, fk.ref_cols ≠ []) :
    ∃ st, renderAll tn enums columns composite tfks =
      some (renderBody tn enums columns composite st) := by
  cases hpr : resolveTfks (columns, []) tfks with
  | none => exact absurd (resolveTfks_isSome tfks (columns, []) hfks) (by rw [hpr]; simp)
  | some pr => exact ⟨pr, by simp [renderAll, hpr]⟩

theorem sql_to_drizzle_shape (s : Str) :
    ∃ o, sql_to_drizzle s = some o ∧
      ((extractFailedB (normalize s) = true ∧ leadsWith ("// Failed to parse").toList o) ∨
       (extractFailedB (normalize s) = false ∧ leadsWith ("export const ").toList o)) := by
  cases hex : extractInside (normalize s) with
  | noParen =>
    refine ⟨("// Failed to parse table definition for ").toList ++
        (searchTable (normalize s)).getD ("unknown").toList, ?_, Or.inl ⟨?_, ?_⟩⟩
    · simp [sql_to_drizzle, hex]
    · simp [extractFailedB, hex]
    · refine ⟨(" table definition for ").toList ++
        (searchTable (normalize s)).getD ("unknown").toList, ?_⟩
      rw [← List.append_assoc]
      have hlit : ("// Failed to parse").toList ++ (" table definition for ").toList =
          ("// Failed to parse table definition for ").toList := by decide
      rw [hlit]
  | unbalanced =>
    refine ⟨("// Failed to parse columns for ").toList ++
        (searchTable (normalize s)).getD ("unknown").toList, ?_, Or.inl ⟨?_, ?_⟩⟩
    · simp [sql_to_drizzle, hex]
    · simp [extractFailedB, hex]
    · refine ⟨(" columns for ").toList ++
        (searchTable (normalize s)).getD ("unknown").toList, ?_⟩
      rw [← List.append_assoc]
      have hlit : ("// Failed to parse").toList ++ (" columns for ").toList =
          ("// Failed to parse columns for ").toList := by decide
      rw [hlit]
  | ok inside =>
    obtain ⟨st, hst⟩ := renderAll_some ((searchTable (normalize s)).getD ("unknown").toList)
      (pass1 (splitItems inside)).enums
      (applyTpk (pass1 (splitItems inside)).columns (pass1 (splitItems inside)).table_level_pk).1
      (applyTpk (pass1 (splitItems inside)).columns (pass1 (splitItems inside)).table_level_pk).2
      (pass1 (splitItems inside)).table_level_fks
      (pass1_fks (splitItems inside))
    refine ⟨renderBody ((searchTable (normalize s)).getD ("unknown").toList)
        (pass1 (splitItems inside)).enums
        (applyTpk (pass1 (splitItems inside)).columns (pass1 (splitItems inside)).table_level_pk).1
        (applyTpk (pass1 (splitItems inside)).columns (pass1 (splitItems inside)).table_level_pk).2
        st, ?_, Or.inr ⟨?_, ?_⟩⟩
    · simp only [sql_to_drizzle, hex]
      exact hst
    · simp [extractFailedB, hex]
    · exact renderBody_leadsWith _ _ _ _ _ (pass1_enums (splitItems inside))

/-! ## Claim theorems -/

/-- C8: the conversion is total — for every input string it terminates and
produces a string; in particular the one unguarded indexing operation of the
source (`ref_cols[0]`) can never fail, so no exception reaches the caller. -/
theorem sqlToDrizzleTotal (s : Str) : (sql_to_drizzle s).isSome := by
  obtain ⟨o, ho, _⟩ := sql_to_drizzle_shape s
  rw [ho]
  rfl

/-- C1 (amended): the conversion returns a single rendered artifact — the
ORM schema-builder source text (every successful output begins with an
`export const` enum or table declaration) — or a `// Failed to parse`
diagnostic string exactly when the column block could not be extracted.  No
PostgreSQL DDL text and no trigger text is produced. -/
theorem outputSingleArtifact (s : Str) :
    ∃ o, sql_to_drizzle s = some o ∧
      ((extractFailedB (normalize s) = true ∧ leadsWith ("// Failed to parse").toList o) ∨
       (extractFailedB (normalize s) = false ∧ leadsWith ("export const ").toList o)) :=
  sql_to_drizzle_shape s

/-- C1 counterexample: on a structurally valid input the result is exactly
the ORM source text and contains no PostgreSQL `CREATE TABLE` DDL at all,
refuting the claim that both artifacts are carried. -/
theorem noDdlOnSimpleInput :
    sql_to_drizzle (("CREATE TABLE t (id INT)").toList) =
      some (("export const t = pgTable(\"t\", \x7b\n  id: integer(\"id\"),\n\x7d\n);").toList) ∧
    containsSub (("CREATE TABLE").toList)
      (("export const t = pgTable(\"t\", \x7b\n  id: integer(\"id\"),\n\x7d\n);").toList) = false := by
  constructor <;> decide

/-- C2 (amended): the DEFAULT extractors are tried in the order
single-quoted string, double-quoted string, BOOLEAN (keyword or bare 0/1,
normalised to true/false), numeric literal, function-call literal; the first
match wins and no match leaves the default absent.  Boolean is consulted
before numeric, so `DEFAULT 0` is stored as `false`. -/
theorem defaultOrderActual (rest : Str) :
    (∀ g, m_def_str rest = some g → extractDefault rest = some (dquote g)) ∧
    (∀ g, m_def_str rest = none → m_def_quoted rest = some g →
      extractDefault rest = some (dquote g)) ∧
    (∀ g, m_def_str rest = none → m_def_quoted rest = none → m_def_bool rest = some g →
      extractDefault rest = some (normBool01 g)) ∧
    (∀ g, m_def_str rest = none → m_def_quoted rest = none → m_def_bool rest = none →
      m_def_num rest = some g → extractDefault rest = some g) ∧
    (∀ g, m_def_str rest = none → m_def_quoted rest = none → m_def_bool rest = none →
      m_def_num rest = none → m_def_fn rest = some g → extractDefault rest = some g) ∧
    (m_def_str rest = none → m_def_quoted rest = none → m_def_bool rest = none →
      m_def_num rest = none → m_def_fn rest = none → extractDefault rest = none) := by
  refine ⟨?_, ?_, ?_, ?_, ?_, ?_⟩ <;> intros <;> simp_all [extractDefault]

/-- C2 witness: `defaultOrderActual` applied to the remainder
`INT DEFAULT 0`, whose boolean extractor fires with the bare `0`. -/
theorem defaultOrderActualWitness :
    extractDefault (("INT DEFAULT 0").toList) = some (normBool01 (['0'])) :=
  (defaultOrderActual (("INT DEFAULT 0").toList)).2.2.1 (['0'])
    (by decide) (by decide) (by decide)

/-- C2 counterexample: `DEFAULT 0` is stored as the boolean word `false`,
not as the numeric literal `0` claimed by the numeric-before-boolean order. -/
theorem defaultZeroStoredAsFalse :
    extractDefault (("INT DEFAULT 0").toList) = some (("false").toList) ∧
    ¬ extractDefault (("INT DEFAULT 0").toList) = some (("0").toList) := by
  constructor <;> decide

/-- C3 (amended): the parsed fields of a column other than its name and its
derived enum name depend only on the remainder — the resolved type is
name-independent, so the audit names `created_at`/`updated_at`/`deleted_at`
receive no special treatment and no update-trigger flag exists. -/
theorem typeIgnoresColumnName (n1 n2 rest : Str) :
    (parseColumn n1 rest).ts_type = (parseColumn n2 rest).ts_type ∧
    (parseColumn n1 rest).not_null = (parseColumn n2 rest).not_null ∧
    (parseColumn n1 rest).primary = (parseColumn n2 rest).primary ∧
    (parseColumn n1 rest).identity = (parseColumn n2 rest).identity ∧
    (parseColumn n1 rest).default = (parseColumn n2 rest).default ∧
    (parseColumn n1 rest).length = (parseColumn n2 rest).length :=
  ⟨rfl, rfl, rfl, rfl, rfl, rfl⟩

/-- C3 counterexample: a column named `created_at` with declared type INT
resolves to Integer, not to the claimed forced Timestamp. -/
theorem createdAtNotForcedTimestamp :
    (parseColumn (("created_at").toList) (("INT").toList)).ts_type = TsType.integer ∧
    TsType.integer ≠ TsType.timestamp := by
  constructor <;> decide

/-- C5 (amended): for a column whose remainder carries no ENUM(values) list,
an identity marker forces type Integer and the primary flag, overriding any
declared type; a column with an ENUM list keeps type Enum and its primary
flag is not forced by identity (and a later table-level untyped-PK override
can still retype a column). -/
theorem identityForcesIntegerUnlessEnum (name rest : Str)
    (henum : m_enum rest = none)
    (hid : identityOf (rest.map Char.toUpper) = true) :
    (parseColumn name rest).ts_type = TsType.integer ∧
    (parseColumn name rest).primary = true := by
  refine ⟨?_, ?_⟩ <;> simp [parseColumn, parseColumnCore, henum, hid]

/-- C5 witness: `identityForcesIntegerUnlessEnum` at the column
`id AUTO_INCREMENT`. -/
theorem identityForcesIntegerUnlessEnumWitness :
    (parseColumn (("id").toList) (("AUTO_INCREMENT").toList)).ts_type = TsType.integer ∧
    (parseColumn (("id").toList) (("AUTO_INCREMENT").toList)).primary = true :=
  identityForcesIntegerUnlessEnum (("id").toList) (("AUTO_INCREMENT").toList)
    (by decide) (by decide)

/-- C5 counterexample: an ENUM column with AUTO_INCREMENT keeps type Enum
and does not get its primary flag set, refuting identity ⇒ Integer ∧ primary
for enum-carrying columns. -/
theorem enumIdentityKeepsEnum :
    (parseColumn (("status").toList) (("ENUM(a,b) AUTO_INCREMENT").toList)).identity = true ∧
    (parseColumn (("status").toList) (("ENUM(a,b) AUTO_INCREMENT").toList)).ts_type = TsType.enum ∧
    (parseColumn (("status").toList) (("ENUM(a,b) AUTO_INCREMENT").toList)).primary = false ∧
    TsType.enum ≠ TsType.integer := by
  refine ⟨by decide, by decide, by decide, by decide⟩

/-- C4: a single-column table-level FOREIGN KEY on an existing,
reference-free column is folded into the columns dictionary only AFTER the
column builder lines were rendered, so the rendered output carries neither a
`.references(...)` call nor a standalone `foreignKey` entry — the constraint
is silently dropped, contradicting the claim and the source's own comments. -/
theorem singleColumnFkDropped :
    sql_to_drizzle (("CREATE TABLE t (a INT, FOREIGN KEY (a) REFERENCES p (id))").toList) =
      some (("export const t = pgTable(\"t\", \x7b\n  a: integer(\"a\"),\n\x7d\n);").toList) ∧
    containsSub (("references").toList)
      (("export const t = pgTable(\"t\", \x7b\n  a: integer(\"a\"),\n\x7d\n);").toList) = false ∧
    containsSub (("foreignKey").toList)
      (("export const t = pgTable(\"t\", \x7b\n  a: integer(\"a\"),\n\x7d\n);").toList) = false := by
  refine ⟨by decide, by decide, by decide⟩

/-- C6: the table-level PRIMARY KEY names are captured from the UPPERCASED
item, so `PRIMARY KEY (code)` stores the name `CODE`, which never matches
the lower-case column key `code`; the untyped column keeps the Text fallback
and no primary flag, contradicting the docstring's rule 3 (Varchar(200)). -/
theorem tableLevelPkCaseMismatch :
    sql_to_drizzle (("CREATE TABLE t (code, PRIMARY KEY (code))").toList) =
      some (("export const t = pgTable(\"t\", \x7b\n  code: text(\"code\"),\n\x7d\n);").toList) ∧
    containsSub (("varchar").toList)
      (("export const t = pgTable(\"t\", \x7b\n  code: text(\"code\"),\n\x7d\n);").toList) = false ∧
    containsSub ((".primaryKey()").toList)
      (("export const t = pgTable(\"t\", \x7b\n  code: text(\"code\"),\n\x7d\n);").toList) = false := by
  refine ⟨by decide, by decide, by decide⟩

/-- C7: the column-block scan starts at the first `(` of the WHOLE string
(`sql_text.find("(")`), not at the first `(` after the CREATE TABLE header
as the source's own comment states; with a parenthesis before the header the
conversion renders a table instead of returning the diagnostic. -/
theorem parenBeforeHeaderParsed :
    sql_to_drizzle (("(x) CREATE TABLE t").toList) =
      some (("export const t = pgTable(\"t\", \x7b\n  x: text(\"x\"),\n\x7d\n);").toList) ∧
    containsSub (("Failed to parse").toList)
      (("export const t = pgTable(\"t\", \x7b\n  x: text(\"x\"),\n\x7d\n);").toList) = false := by
  constructor <;> decide

/-- C9: the clause splitter's lookahead regex splits at a comma that lies
INSIDE parentheses whenever a nested `(` follows the comma before the
closing `)` — here inside `COALESCE(b, NOW())` — refuting the claim that
splits occur only at parenthesis depth zero. -/
theorem splitInsideNestedParens :
    splitItems (("a TIMESTAMP DEFAULT COALESCE(b, NOW())").toList) =
      [("a TIMESTAMP DEFAULT COALESCE(b").toList, ("NOW())").toList] ∧
    ¬ splitItems (("a TIMESTAMP DEFAULT COALESCE(b, NOW())").toList) =
      [("a TIMESTAMP DEFAULT COALESCE(b, NOW())").toList] := by
  constructor <;> decide

end SqlToDrizzle
